import Mathlib

/-!
Verification of the scraping pipeline variants of this repository.

Each variant is a linear fetch → parse → select → extract → render pipeline.
The HTTP transport, HTML parser and selector engine are external collaborators
(spec §1, §6): we embed a response as its status code together with the
already-selected node list the selector engine would produce for the fixed
query of each variant, in document order.  Rust panics (`unwrap` on `None`,
out-of-bounds indexing, failed `assert!`) are embedded as explicit error
values; the observable stdout output of a run is a `List String` of emitted
chunks, empty when the run aborted before anything was flushed.
-/

set_option autoImplicit false

namespace Scrape

/-- An HTTP response, abstracted to its status code and its parsed/selected
body (the selector engine is a black box per spec §6). -/
structure Response (α : Type) where
  status : Nat
  body : α
deriving DecidableEq

/-- reqwest `StatusCode::is_success`: true exactly for 2xx codes. -/
def statusIsSuccess (s : Nat) : Bool :=
  decide (200 ≤ s) && decide (s < 300)

/-- Positions (counting from `k`) of the elements of a list kept by a
predicate, in traversal order. -/
def keptIdxFrom {α : Type} (keep : α → Bool) (k : Nat) : List α → List Nat
  | [] => []
  | a :: as =>
    if keep a then k :: keptIdxFrom keep (k + 1) as else keptIdxFrom keep (k + 1) as

/-- The double-quote character (written by code point to keep literals
free of escapes). -/
def dq : Char := Char.ofNat 34

/-- The backslash character. -/
def bsl : Char := Char.ofNat 92

/-- Rust `char::escape_debug` restricted to the escapes that can arise in
the strings we model: quote and backslash (control characters are not
modelled; none occur in the inputs considered). -/
def escapeDebug (c : Char) : String :=
  if c = dq then String.mk [bsl, dq]
  else if c = bsl then String.mk [bsl, bsl]
  else String.singleton c

/-- Rust `format!("{:?}", s)` for a string slice: the escaped contents
surrounded by double quotes. -/
def rustDebug (s : String) : String :=
  String.mk [dq] ++ String.join (s.data.map escapeDebug) ++ String.mk [dq]

/-- Rust `format!("{:?}", v)` for a `Vec` of string slices:
`[` elem `, ` elem … `]` with each element debug-quoted. -/
def rustDebugVec (xs : List String) : String :=
  "[" ++ String.intercalate ", " (xs.map rustDebug) ++ "]"

end Scrape

namespace HackScraper

/-! Embedding of `hack-scraper/src/main.rs` (the buffered table variant,
using the `scraper` crate).  The selector `td:nth-child(3) > span > a`
yields anchor elements; each is abstracted to its optional `href` attribute
and its list of descendant text fragments (what `story.text().collect()`
yields, in order). -/

/-- One anchor matched by `Selector::parse("td:nth-child(3) > span > a")`:
its `href` attribute (if present) and its text fragments. -/
structure Anchor where
  href : Option String
  text : List String
deriving DecidableEq

/-- The two ways the extraction loop of `main` can abort the process. -/
inductive Crash where
  /-- `story.value().attr("href").unwrap()` on a `None`. -/
  | unwrapNone
  /-- `story_txt[0]` on an empty vector. -/
  | indexOOB
deriving DecidableEq

/-- The body of the `for story in document.select(&stories)` loop:
unwrap `href` (panics if absent), collect the text fragments, index the
first one (panics if there are none), skip the record when it is the
literal `"login"`, and otherwise keep the `(title, link)` pair that the
two `table.add_row` calls append. -/
def processStory (story : Anchor) : Except Crash (Option (String × String)) :=
  match story.href with
  | none => .error .unwrapNone
  | some story_link =>
    match story.text with
    | [] => .error .indexOOB
    | t :: _ => if t = "login" then .ok none else .ok (some (t, story_link))

/-- The whole extraction loop: the records appended to the table, in
iteration (document) order, or the crash that aborted the run. -/
def hnTable : List Anchor → Except Crash (List (String × String))
  | [] => .ok []
  | story :: rest =>
    match processStory story with
    | .error e => .error e
    | .ok r =>
      match hnTable rest with
      | .error e => .error e
      | .ok tail =>
        match r with
        | none => .ok tail
        | some rec => .ok (rec :: tail)

/-- `table.printstd()`: each record contributed two rows, a title row then
a link row, appended in record order. -/
def renderRows (recs : List (String × String)) : List String :=
  recs.flatMap (fun r => [r.1, r.2])

/-- `get_hacker_news_data`: `reqwest::blocking::get(..)?.text()?`.  Only
transport errors fail; the body text is returned for any HTTP status
(there is no status check in this variant). -/
def get_hacker_news_data (resp : Scrape.Response (List Anchor)) : List Anchor :=
  resp.body

/-- The result of `main` as a value: the rendered table rows, or the crash. -/
def mainRun (resp : Scrape.Response (List Anchor)) : Except Crash (List String) :=
  (hnTable (get_hacker_news_data resp)).map renderRows

/-- What `main` actually prints: the table is buffered and printed once at
the end, so a crash anywhere in the loop leaves stdout empty. -/
def mainOutput (resp : Scrape.Response (List Anchor)) : List String :=
  match mainRun resp with
  | .ok rows => rows
  | .error _ => []

/-- A successful loop iteration needs a present `href` and a nonempty
fragment list. -/
def anchorOk (story : Anchor) : Bool :=
  story.href.isSome && !story.text.isEmpty

/-- The record an anchor contributes when the loop does not crash on it:
`none` for the filtered `"login"` entry. -/
def extractOne (story : Anchor) : Option (String × String) :=
  match story.href, story.text with
  | some u, t :: _ => if t = "login" then none else some (t, u)
  | _, _ => none

/-- Whether the anchor's first text fragment is the literal `"login"`. -/
def isLoginItem (story : Anchor) : Bool :=
  story.text.head? = some "login"

/-- Document-order positions of the anchors that contribute a record. -/
def recordIdx (doc : List Anchor) : List Nat :=
  Scrape.keptIdxFrom (fun s => (extractOne s).isSome) 0 doc

end HackScraper

namespace RankStoryUrl

/-! Embedding of `src/rank_story_url.rs` (and its copy
`examples/rank_story_link.rs`): the streaming line-oriented variant using
the `select` crate.  Each node matched by `Class("athing")` is abstracted
to the text of its first `Class("rank")` descendant (if any) and its first
`Class("title").descendant(Name("a"))` anchor (if any), the anchor being
its concatenated text and optional `href`. -/

/-- The first anchor under a `title`-class descendant: `node.text()` is the
concatenation of its descendant text (no trimming), `href` its optional
link attribute. -/
structure TitleAnchor where
  text : String
  href : Option String
deriving DecidableEq

/-- One node matched by `Class("athing")`. -/
structure Athing where
  rankText : Option String
  titleA : Option TitleAnchor
deriving DecidableEq

/-- One iteration of the `for node in document.find(Class("athing"))` loop:
the chunks it prints, and whether it panicked (`.next().unwrap()` on a
missing rank or title anchor, `attr("href").unwrap()` on a missing href).
The rank/title line is printed before the href is unwrapped, so a missing
href still flushes that first line. -/
def nodeStep (node : Athing) : List String × Bool :=
  match node.rankText with
  | none => ([], true)
  | some rk =>
    match node.titleA with
    | none => ([], true)
    | some a =>
      let line1 := "\n | " ++ rk ++ " | " ++ a.text ++ "\n" ++ "\n"
      match a.href with
      | none => ([line1], true)
      | some u => ([line1, Scrape.rustDebug u ++ "\n" ++ "\n"], false)

/-- The whole loop of `hacker_news`: the chunks printed (streamed in
iteration order), and whether the run panicked; a panic stops the loop,
keeping whatever was already flushed. -/
def hnLoop : List Athing → List String × Bool
  | [] => ([], false)
  | node :: rest =>
    match nodeStep node with
    | (out, true) => (out, true)
    | (out, false) =>
      match hnLoop rest with
      | (tail, p) => (out ++ tail, p)

/-- `hacker_news` including the `assert!(resp.status().is_success())`
status gate: a non-2xx status panics the assert before anything is
printed. -/
def hacker_news (resp : Scrape.Response (List Athing)) : List String × Bool :=
  if Scrape.statusIsSuccess resp.status then hnLoop resp.body else ([], true)

/-- A node on which an iteration completes without panicking. -/
def athingOk (node : Athing) : Bool :=
  match node.rankText, node.titleA with
  | some _, some a => a.href.isSome
  | _, _ => false

/-- The title text the loop extracts from a node: the raw `.text()` of the
first title anchor, with no trimming applied. -/
def storyTitle (node : Athing) : Option String :=
  node.titleA.map (fun a => a.text)

/-- Modelled from the spec (§4.4, claim C6): the block format the spec
asserts for the line-oriented renderer — the line `<rank> | <title>`, then
the URL on its own line. -/
def specBlock (rk t u : String) : List String :=
  [rk ++ " | " ++ t ++ "\n", u ++ "\n"]

/-- Modelled from the spec (§4.3b, claim C7): removal of leading and
trailing whitespace, the trimming the spec says the text-extraction
primitive performs. -/
def specTrim (s : String) : String :=
  String.mk
    (((s.data.dropWhile Char.isWhitespace).reverse.dropWhile
      Char.isWhitespace).reverse)

end RankStoryUrl

namespace GrabAllLinks

/-! Embedding of `src/grab_all_links.rs`: every `<a>` element of the
document, abstracted to its optional `href` attribute, in document
order. -/

/-- `hacker_news`: after the status assert, print each present `href`
attribute on its own line (`filter_map(|n| n.attr("href"))`), skipping
anchors without one; a non-2xx status panics the assert with no output. -/
def hacker_news (resp : Scrape.Response (List (Option String))) :
    List String × Bool :=
  if Scrape.statusIsSuccess resp.status then
    ((resp.body.filterMap (fun n => n)).map (fun x => x ++ "\n"), false)
  else ([], true)

/-- Document-order positions of the anchors that carry an `href`. -/
def linkIdx (anchors : List (Option String)) : List Nat :=
  Scrape.keptIdxFrom (fun n => n.isSome) 0 anchors

end GrabAllLinks

namespace ScraperStories

/-! Embedding of `src/scraper_stories.rs` (and its copy
`examples/scraper_stories.rs`): each element matched by `.storylink` is
abstracted to its list of text fragments; the loop debug-prints each
fragment vector on its own line. -/

/-- `hn_headlines`: after the status assert, print `format!("{:?}",
story_txt)` for each matched story, in document order. -/
def hn_headlines (resp : Scrape.Response (List (List String))) :
    List String × Bool :=
  if Scrape.statusIsSuccess resp.status then
    (resp.body.map (fun t => Scrape.rustDebugVec t ++ "\n"), false)
  else ([], true)

end ScraperStories

section KeptIdxLemmas

open Scrape

theorem keptIdxFrom_ge {α : Type} (keep : α → Bool) (k : Nat) (l : List α) :
    ∀ i ∈ keptIdxFrom keep k l, k ≤ i := by
  induction l generalizing k with
  | nil => intro i hi; cases hi
  | cons a as ih =>
    intro i hi
    by_cases ha : keep a
    · simp only [keptIdxFrom, ha, if_true] at hi
      rcases List.mem_cons.mp hi with h1 | h1
      · exact h1 ▸ Nat.le_refl k
      · exact Nat.le_of_succ_le (ih (k + 1) i h1)
    · simp only [keptIdxFrom, ha, if_false] at hi
      exact Nat.le_of_succ_le (ih (k + 1) i hi)

theorem keptIdxFrom_pairwise {α : Type} (keep : α → Bool) (k : Nat) (l : List α) :
    List.Pairwise (· < ·) (keptIdxFrom keep k l) := by
  induction l generalizing k with
  | nil => exact List.Pairwise.nil
  | cons a as ih =>
    by_cases ha : keep a
    · simp only [keptIdxFrom, ha, if_true]
      exact List.Pairwise.cons
        (fun i hi => Nat.lt_of_succ_le (keptIdxFrom_ge keep (k + 1) as i hi)) (ih (k + 1))
    · simp only [keptIdxFrom, ha, if_false]
      exact ih (k + 1)

theorem keptIdxFrom_mem {α : Type} (keep : α → Bool) (k : Nat) (l : List α) (i : Nat) :
    i ∈ keptIdxFrom keep k l ↔
      ∃ j, ∃ h : j < l.length, i = k + j ∧ keep (l.get ⟨j, h⟩) = true := by
  induction l generalizing k with
  | nil => simp [keptIdxFrom]
  | cons a as ih =>
    constructor
    · intro hi
      by_cases ha : keep a
      · simp only [keptIdxFrom, ha, if_true] at hi
        rcases List.mem_cons.mp hi with h1 | h1
        · exact ⟨0, Nat.succ_pos _, by simpa using h1, ha⟩
        · rcases (ih (k + 1)).mp h1 with ⟨j, hj, hik, hkeep⟩
          exact ⟨j + 1, Nat.succ_lt_succ hj, by omega, hkeep⟩
      · simp only [keptIdxFrom, ha, if_false] at hi
        rcases (ih (k + 1)).mp hi with ⟨j, hj, hik, hkeep⟩
        exact ⟨j + 1, Nat.succ_lt_succ hj, by omega, hkeep⟩
    · rintro ⟨j, hj, hik, hkeep⟩
      cases j with
      | zero =>
        simp only [List.get] at hkeep
        simp [keptIdxFrom, hkeep, hik]
      | succ j' =>
        have hmem : i ∈ keptIdxFrom keep (k + 1) as :=
          (ih (k + 1)).mpr ⟨j', Nat.lt_of_succ_lt_succ hj, by omega, hkeep⟩
        by_cases ha : keep a <;> simp [keptIdxFrom, ha, hmem]

end KeptIdxLemmas

section HackScraperLemmas

open HackScraper

theorem processStory_ok (story : Anchor) (h : anchorOk story = true) :
    processStory story = .ok (extractOne story) := by
  rcases story with ⟨href, text⟩
  rcases href with _ | u
  · simp [anchorOk] at h
  · rcases text with _ | ⟨t, ts⟩
    · simp [anchorOk, List.isEmpty] at h
    · by_cases ht : t = "login" <;> simp [processStory, extractOne, ht]

theorem hnTable_ok (doc : List Anchor) (h : ∀ s ∈ doc, anchorOk s = true) :
    hnTable doc = .ok (doc.filterMap extractOne) := by
  induction doc with
  | nil => rfl
  | cons story rest ih =>
    have hs : anchorOk story = true := h story (List.mem_cons_self story rest)
    have hrest := ih (fun s hs' => h s (List.mem_cons_of_mem story hs'))
    rcases hrec : extractOne story with _ | rec <;>
      simp [hnTable, processStory_ok story hs, hrec, hrest, List.filterMap_cons]

theorem processStory_ok_anchorOk (story : Anchor) (r : Option (String × String))
    (h : processStory story = .ok r) : anchorOk story = true := by
  rcases story with ⟨href, text⟩
  rcases href with _ | u
  · simp [processStory] at h
  · rcases text with _ | ⟨t, ts⟩
    · simp [processStory] at h
    · simp [anchorOk, List.isEmpty]

theorem hnTable_ok_anchorOk (doc : List Anchor) (recs : List (String × String))
    (h : hnTable doc = .ok recs) : ∀ s ∈ doc, anchorOk s = true := by
  induction doc generalizing recs with
  | nil => intro s hs; cases hs
  | cons story rest ih =>
    intro s hs
    rcases hps : processStory story with e | r
    · simp [hnTable, hps] at h
    · rcases htail : hnTable rest with e | tail
      · simp [hnTable, hps, htail] at h
      · rcases List.mem_cons.mp hs with h1 | h1
        · exact h1 ▸ processStory_ok_anchorOk story r hps
        · exact ih tail htail s h1

theorem hnTable_ok_eq (doc : List Anchor) (recs : List (String × String))
    (h : hnTable doc = .ok recs) : recs = doc.filterMap extractOne := by
  have := hnTable_ok doc (hnTable_ok_anchorOk doc recs h)
  rw [h] at this
  exact (Except.ok.inj this)

theorem hnTable_append_ok (pre rest : List Anchor) (h : ∀ s ∈ pre, anchorOk s = true)
    (tail : List (String × String)) (ht : hnTable rest = .ok tail) :
    hnTable (pre ++ rest) = .ok (pre.filterMap extractOne ++ tail) := by
  induction pre with
  | nil => simpa using ht
  | cons story ps ih =>
    have hs : anchorOk story = true := h story (List.mem_cons_self story ps)
    have hps := ih (fun s hs' => h s (List.mem_cons_of_mem story hs'))
    rcases hrec : extractOne story with _ | rec <;>
      simp [hnTable, processStory_ok story hs, hrec, hps, List.filterMap_cons]

theorem hnTable_append_error (pre rest : List Anchor) (h : ∀ s ∈ pre, anchorOk s = true)
    (e : Crash) (he : hnTable rest = .error e) :
    hnTable (pre ++ rest) = .error e := by
  induction pre with
  | nil => simpa using he
  | cons story ps ih =>
    have hs : anchorOk story = true := h story (List.mem_cons_self story ps)
    have hps := ih (fun s hs' => h s (List.mem_cons_of_mem story hs'))
    simp [hnTable, processStory_ok story hs, hps]

theorem hnTable_missing_href (doc : List Anchor) (h : ∃ s ∈ doc, s.href = none) :
    ∃ e, hnTable doc = .error e := by
  induction doc with
  | nil => rcases h with ⟨s, hs, _⟩; cases hs
  | cons story rest ih =>
    rcases hps : processStory story with e | r
    · exact ⟨e, by simp [hnTable, hps]⟩
    · have hsome : story.href ≠ none := by
        rcases story with ⟨href, text⟩
        rcases href with _ | u
        · simp [processStory] at hps
        · simp
      rcases h with ⟨s, hs, hnone⟩
      rcases List.mem_cons.mp hs with h1 | h1
      · exact absurd (h1 ▸ hnone) hsome
      · rcases ih ⟨s, h1, hnone⟩ with ⟨e, he⟩
        exact ⟨e, by simp [hnTable, hps, he]⟩

theorem extractOne_some (story : HackScraper.Anchor) (r : String × String)
    (h : HackScraper.extractOne story = some r) :
    story.href = some r.2 ∧ story.text.head? = some r.1 ∧ r.1 ≠ "login" := by
  rcases story with ⟨href, text⟩
  rcases href with _ | u
  · simp [HackScraper.extractOne] at h
  · rcases text with _ | ⟨t, ts⟩
    · simp [HackScraper.extractOne] at h
    · by_cases ht : t = "login"
      · simp [HackScraper.extractOne, ht] at h
      · simp only [HackScraper.extractOne, ht, if_false, Option.some.injEq] at h
        refine ⟨?_, ?_, ?_⟩
        · rw [← h]
        · rw [← h]; rfl
        · rw [← h]; exact ht

theorem hnTable_ok_mem (doc : List HackScraper.Anchor) (recs : List (String × String))
    (h : HackScraper.hnTable doc = .ok recs) :
    ∀ r ∈ recs, ∃ s ∈ doc,
      s.href = some r.2 ∧ s.text.head? = some r.1 ∧ r.1 ≠ "login" := by
  intro r hr
  rw [hnTable_ok_eq doc recs h] at hr
  rcases List.mem_filterMap.mp hr with ⟨s, hs, hex⟩
  exact ⟨s, hs, extractOne_some s r hex⟩

theorem processStory_login (n : HackScraper.Anchor) (h1 : n.href.isSome = true)
    (h2 : n.text.head? = some "login") :
    HackScraper.processStory n = .ok none := by
  rcases n with ⟨href, text⟩
  rcases href with _ | u
  · simp at h1
  · rcases text with _ | ⟨t, ts⟩
    · simp at h2
    · have ht : t = "login" := by simpa using h2
      simp [HackScraper.processStory, ht]

theorem hnTable_skip (pre post : List HackScraper.Anchor) (n : HackScraper.Anchor)
    (h : HackScraper.processStory n = .ok none) :
    HackScraper.hnTable (pre ++ n :: post) = HackScraper.hnTable (pre ++ post) := by
  induction pre with
  | nil =>
    rcases hpost : HackScraper.hnTable post with e | tail <;>
      simp [HackScraper.hnTable, h, hpost]
  | cons s ps ih =>
    rcases hps : HackScraper.processStory s with e | r <;>
      simp [HackScraper.hnTable, hps, ih]

theorem filterMap_length_ok (doc : List HackScraper.Anchor)
    (h : ∀ s ∈ doc, HackScraper.anchorOk s = true) :
    (doc.filterMap HackScraper.extractOne).length =
      (doc.filter (fun s => !HackScraper.isLoginItem s)).length := by
  induction doc with
  | nil => rfl
  | cons s rest ih =>
    have hs : HackScraper.anchorOk s = true := h s (List.mem_cons_self s rest)
    have hrest := ih (fun x hx => h x (List.mem_cons_of_mem s hx))
    rcases s with ⟨href, text⟩
    rcases href with _ | u
    · simp [HackScraper.anchorOk] at hs
    · rcases text with _ | ⟨t, ts⟩
      · simp [HackScraper.anchorOk, List.isEmpty] at hs
      · by_cases ht : t = "login" <;>
          simp [HackScraper.extractOne, HackScraper.isLoginItem, ht,
            List.filterMap_cons, List.filter_cons, hrest]

theorem recordIdx_mem (doc : List HackScraper.Anchor) (i : Nat) :
    i ∈ HackScraper.recordIdx doc ↔
      ∃ h : i < doc.length, (HackScraper.extractOne (doc.get ⟨i, h⟩)).isSome = true := by
  rw [HackScraper.recordIdx, keptIdxFrom_mem]
  constructor
  · rintro ⟨j, hj, hij, hk⟩
    have : i = j := by omega
    subst this
    exact ⟨hj, hk⟩
  · rintro ⟨hlt, hk⟩
    exact ⟨i, hlt, by omega, hk⟩

end HackScraperLemmas

section RankStoryUrlLemmas

open RankStoryUrl

theorem nodeStep_ok (node : Athing) (h : athingOk node = true) :
    (nodeStep node).2 = false := by
  rcases node with ⟨rk, ta⟩
  rcases rk with _ | r
  · simp [athingOk] at h
  · rcases ta with _ | a
    · simp [athingOk] at h
    · rcases a with ⟨t, href⟩
      rcases href with _ | u
      · simp [athingOk] at h
      · rfl

theorem hnLoop_ok (doc : List Athing) (h : ∀ n ∈ doc, athingOk n = true) :
    hnLoop doc = (doc.flatMap (fun n => (nodeStep n).1), false) := by
  induction doc with
  | nil => rfl
  | cons node rest ih =>
    have hn : (nodeStep node).2 = false :=
      nodeStep_ok node (h node (List.mem_cons_self node rest))
    have hrest := ih (fun n hn' => h n (List.mem_cons_of_mem node hn'))
    rcases hstep : nodeStep node with ⟨out, p⟩
    rw [hstep] at hn
    subst hn
    simp [hnLoop, hstep, hrest]

theorem nodeStep_no_panic (node : Athing) (h : (nodeStep node).2 = false) :
    athingOk node = true := by
  rcases node with ⟨rk, ta⟩
  rcases rk with _ | r
  · simp [nodeStep] at h
  · rcases ta with _ | a
    · simp [nodeStep] at h
    · rcases a with ⟨t, href⟩
      rcases href with _ | u
      · simp [nodeStep] at h
      · rfl

theorem hnLoop_no_panic (doc : List Athing) (h : (hnLoop doc).2 = false) :
    ∀ n ∈ doc, athingOk n = true := by
  induction doc with
  | nil => intro n hn; cases hn
  | cons node rest ih =>
    rcases hstep : nodeStep node with ⟨out, p⟩
    cases p with
    | true => simp [hnLoop, hstep] at h
    | false =>
      have hrest : (hnLoop rest).2 = false := by
        rcases hrl : hnLoop rest with ⟨tail, q⟩
        simp [hnLoop, hstep, hrl] at h
        exact h
      intro n hn
      rcases List.mem_cons.mp hn with h1 | h1
      · exact h1 ▸ nodeStep_no_panic node (by rw [hstep])
      · exact ih hrest n h1

theorem hnLoop_append_ok (pre rest : List Athing)
    (h : ∀ m ∈ pre, athingOk m = true) :
    hnLoop (pre ++ rest) =
      (pre.flatMap (fun n => (nodeStep n).1) ++ (hnLoop rest).1,
        (hnLoop rest).2) := by
  induction pre with
  | nil => simp
  | cons node ps ih =>
    have hn : (nodeStep node).2 = false :=
      nodeStep_ok node (h node (List.mem_cons_self node ps))
    have hps := ih (fun m hm => h m (List.mem_cons_of_mem node hm))
    rcases hstep : nodeStep node with ⟨out, p⟩
    rw [hstep] at hn
    subst hn
    simp [hnLoop, hstep, hps, List.flatMap_cons, List.append_assoc]

end RankStoryUrlLemmas

/-- Claim C1: for every document containing N item nodes in document order,
the extractor yields exactly one record per non-filtered item node in that
same relative order (indices of contributing anchors are strictly
increasing in document order), and the renderer emits the records in that
same order, for all N ≥ 0 — in the buffered table variant the rendered
rows are the flattening of the extracted records in extraction order, and
in the streaming line variant the printed chunks are the per-node blocks
concatenated in iteration order. -/
theorem c1_ordering (st : Nat) (doc : List HackScraper.Anchor)
    (recs : List (String × String))
    (h : HackScraper.hnTable doc = .ok recs)
    (adoc : List RankStoryUrl.Athing)
    (ha : ∀ n ∈ adoc, RankStoryUrl.athingOk n = true) :
    recs = doc.filterMap HackScraper.extractOne ∧
    recs.length = (doc.filter (fun s => !HackScraper.isLoginItem s)).length ∧
    List.Pairwise (· < ·) (HackScraper.recordIdx doc) ∧
    (∀ i, i ∈ HackScraper.recordIdx doc ↔
      ∃ hlt : i < doc.length,
        (HackScraper.extractOne (doc.get ⟨i, hlt⟩)).isSome = true) ∧
    HackScraper.mainOutput (Scrape.Response.mk st doc) =
      HackScraper.renderRows (doc.filterMap HackScraper.extractOne) ∧
    RankStoryUrl.hnLoop adoc =
      (adoc.flatMap (fun n => (RankStoryUrl.nodeStep n).1), false) := by
  have heq := hnTable_ok_eq doc recs h
  refine ⟨heq, ?_, ?_, recordIdx_mem doc, ?_, hnLoop_ok adoc ha⟩
  · rw [heq]
    exact filterMap_length_ok doc (hnTable_ok_anchorOk doc recs h)
  · exact keptIdxFrom_pairwise _ 0 doc
  · simp [HackScraper.mainOutput, HackScraper.mainRun,
      HackScraper.get_hacker_news_data, h, Except.map, heq.symm]

/-- Witness for C1 at a concrete three-anchor document (one filtered
`"login"` entry) and a concrete one-node line-variant document. -/
theorem c1_ordering_witness :
    HackScraper.hnTable
        [HackScraper.Anchor.mk (some "http://a") ["Story A"],
         HackScraper.Anchor.mk (some "http://l") ["login"],
         HackScraper.Anchor.mk (some "http://b") ["Story B"]] =
      .ok [("Story A", "http://a"), ("Story B", "http://b")] ∧
    (∀ n ∈ [RankStoryUrl.Athing.mk (some "1.")
        (some (RankStoryUrl.TitleAnchor.mk "Story A" (some "http://a")))],
      RankStoryUrl.athingOk n = true) ∧
    ([("Story A", "http://a"), ("Story B", "http://b")] :
        List (String × String)).length =
      ([HackScraper.Anchor.mk (some "http://a") ["Story A"],
        HackScraper.Anchor.mk (some "http://l") ["login"],
        HackScraper.Anchor.mk (some "http://b") ["Story B"]].filter
          (fun s => !HackScraper.isLoginItem s)).length := by
  refine ⟨by rfl, by decide, ?_⟩
  exact (c1_ordering 200
    [HackScraper.Anchor.mk (some "http://a") ["Story A"],
     HackScraper.Anchor.mk (some "http://l") ["login"],
     HackScraper.Anchor.mk (some "http://b") ["Story B"]]
    [("Story A", "http://a"), ("Story B", "http://b")]
    (by rfl)
    [RankStoryUrl.Athing.mk (some "1.")
      (some (RankStoryUrl.TitleAnchor.mk "Story A" (some "http://a")))]
    (by decide)).2.1

/-- Claim C2 counterexample: the table variant (`hack-scraper/src/main.rs`)
performs no status check at all — `reqwest::blocking::get(..)?.text()?`
succeeds for any HTTP status — so a 503 response whose body still contains
a story entry is parsed, extracted and rendered: the run does not fail and
one record is rendered, refuting the claim for that variant. -/
theorem c2_counterexample :
    Scrape.statusIsSuccess 503 = false ∧
    HackScraper.mainRun
        (Scrape.Response.mk 503
          [HackScraper.Anchor.mk (some "http://a") ["Story A"]]) =
      .ok ["Story A", "http://a"] ∧
    HackScraper.mainOutput
        (Scrape.Response.mk 503
          [HackScraper.Anchor.mk (some "http://a") ["Story A"]]) =
      ["Story A", "http://a"] :=
  ⟨rfl, rfl, rfl⟩

/-- Claim C2 amended: in the three `select`/`assert!` variants a non-2xx
status fails the assertion and zero records are rendered; the table variant
performs no status check, and its result is independent of the status. -/
theorem c2_amended (s : Nat) (h : Scrape.statusIsSuccess s = false)
    (b1 : List RankStoryUrl.Athing) (b2 : List (Option String))
    (b3 : List (List String)) (b4 : List HackScraper.Anchor) :
    RankStoryUrl.hacker_news (Scrape.Response.mk s b1) = ([], true) ∧
    GrabAllLinks.hacker_news (Scrape.Response.mk s b2) = ([], true) ∧
    ScraperStories.hn_headlines (Scrape.Response.mk s b3) = ([], true) ∧
    HackScraper.mainRun (Scrape.Response.mk s b4) =
      HackScraper.mainRun (Scrape.Response.mk 200 b4) := by
  refine ⟨?_, ?_, ?_, rfl⟩ <;>
    simp [RankStoryUrl.hacker_news, GrabAllLinks.hacker_news,
      ScraperStories.hn_headlines, h]

/-- Witness for C2 amended at status 503 with singleton bodies. -/
theorem c2_amended_witness :
    Scrape.statusIsSuccess 503 = false ∧
    RankStoryUrl.hacker_news
        (Scrape.Response.mk 503
          [RankStoryUrl.Athing.mk (some "1.")
            (some (RankStoryUrl.TitleAnchor.mk "Story A" (some "http://a")))]) =
      ([], true) :=
  ⟨by decide,
   (c2_amended 503 (by decide)
      [RankStoryUrl.Athing.mk (some "1.")
        (some (RankStoryUrl.TitleAnchor.mk "Story A" (some "http://a")))]
      [some "http://a"] [["Story A"]]
      [HackScraper.Anchor.mk (some "http://a") ["Story A"]]).1⟩

/-- Claim C3: a record whose extracted title is exactly `"login"` never
appears among the extracted/rendered records, regardless of its position,
and the records around it are still rendered: inserting a login entry
(with its href present, as on the real page) anywhere leaves both the
extraction result and the rendered output unchanged. -/
theorem c3_login_filter (doc : List HackScraper.Anchor)
    (recs : List (String × String))
    (h : HackScraper.hnTable doc = .ok recs)
    (st : Nat) (pre post : List HackScraper.Anchor) (n : HackScraper.Anchor)
    (hh : n.href.isSome = true) (ht : n.text.head? = some "login") :
    (∀ r ∈ recs, r.1 ≠ "login") ∧
    HackScraper.hnTable (pre ++ n :: post) = HackScraper.hnTable (pre ++ post) ∧
    HackScraper.mainOutput (Scrape.Response.mk st (pre ++ n :: post)) =
      HackScraper.mainOutput (Scrape.Response.mk st (pre ++ post)) := by
  have hskip := hnTable_skip pre post n (processStory_login n hh ht)
  refine ⟨?_, hskip, ?_⟩
  · intro r hr
    rcases hnTable_ok_mem doc recs h r hr with ⟨s, hs, h1, h2, hne⟩
    exact hne
  · simp [HackScraper.mainOutput, HackScraper.mainRun,
      HackScraper.get_hacker_news_data, hskip]

/-- Witness for C3: a login entry inserted in the middle of two stories. -/
theorem c3_login_filter_witness :
    HackScraper.hnTable
        [HackScraper.Anchor.mk (some "http://a") ["Story A"],
         HackScraper.Anchor.mk (some "http://b") ["Story B"]] =
      .ok [("Story A", "http://a"), ("Story B", "http://b")] ∧
    HackScraper.hnTable
        ([HackScraper.Anchor.mk (some "http://a") ["Story A"]] ++
          HackScraper.Anchor.mk (some "news/login") ["login"] ::
            [HackScraper.Anchor.mk (some "http://b") ["Story B"]]) =
      HackScraper.hnTable
        ([HackScraper.Anchor.mk (some "http://a") ["Story A"]] ++
          [HackScraper.Anchor.mk (some "http://b") ["Story B"]]) :=
  ⟨by rfl,
   (c3_login_filter
      [HackScraper.Anchor.mk (some "http://a") ["Story A"],
       HackScraper.Anchor.mk (some "http://b") ["Story B"]]
      [("Story A", "http://a"), ("Story B", "http://b")]
      (by rfl) 200
      [HackScraper.Anchor.mk (some "http://a") ["Story A"]]
      [HackScraper.Anchor.mk (some "http://b") ["Story B"]]
      (HackScraper.Anchor.mk (some "news/login") ["login"])
      (by decide) (by decide)).2.1⟩

/-- Claim C4: when a candidate's anchor lacks the href attribute,
extraction aborts the whole run at that candidate — in both strict
variants the result is the crash, unchanged by whatever candidates follow
(no later candidate is processed) — and the buffered table variant
produces no output at all for that run.  In the streaming line variant the
abort happens at that candidate too: the loop stops with the panic flag
set, having flushed only the earlier candidates' blocks plus that
candidate's rank/title line. -/
theorem c4_missing_href_fatal (pre post post' : List HackScraper.Anchor)
    (n : HackScraper.Anchor) (st : Nat)
    (hpre : ∀ s ∈ pre, HackScraper.anchorOk s = true) (hn : n.href = none)
    (apre apost apost' : List RankStoryUrl.Athing) (rk t : String)
    (hapre : ∀ m ∈ apre, RankStoryUrl.athingOk m = true) :
    HackScraper.hnTable (pre ++ n :: post) = .error .unwrapNone ∧
    HackScraper.hnTable (pre ++ n :: post) =
      HackScraper.hnTable (pre ++ n :: post') ∧
    HackScraper.mainOutput (Scrape.Response.mk st (pre ++ n :: post)) = [] ∧
    RankStoryUrl.hnLoop (apre ++ RankStoryUrl.Athing.mk (some rk)
        (some (RankStoryUrl.TitleAnchor.mk t none)) :: apost) =
      (apre.flatMap (fun m => (RankStoryUrl.nodeStep m).1) ++
        ["\n | " ++ rk ++ " | " ++ t ++ "\n" ++ "\n"], true) ∧
    RankStoryUrl.hnLoop (apre ++ RankStoryUrl.Athing.mk (some rk)
        (some (RankStoryUrl.TitleAnchor.mk t none)) :: apost) =
      RankStoryUrl.hnLoop (apre ++ RankStoryUrl.Athing.mk (some rk)
        (some (RankStoryUrl.TitleAnchor.mk t none)) :: apost') := by
  have hcrash : ∀ q : List HackScraper.Anchor,
      HackScraper.hnTable (n :: q) = .error .unwrapNone := by
    intro q
    simp [HackScraper.hnTable, HackScraper.processStory, hn]
  have h1 := hnTable_append_error pre (n :: post) hpre .unwrapNone (hcrash post)
  have h2 := hnTable_append_error pre (n :: post') hpre .unwrapNone (hcrash post')
  have hbad : ∀ q : List RankStoryUrl.Athing,
      RankStoryUrl.hnLoop (RankStoryUrl.Athing.mk (some rk)
          (some (RankStoryUrl.TitleAnchor.mk t none)) :: q) =
        (["\n | " ++ rk ++ " | " ++ t ++ "\n" ++ "\n"], true) := fun q => rfl
  have hl1 := hnLoop_append_ok apre (RankStoryUrl.Athing.mk (some rk)
    (some (RankStoryUrl.TitleAnchor.mk t none)) :: apost) hapre
  have hl2 := hnLoop_append_ok apre (RankStoryUrl.Athing.mk (some rk)
    (some (RankStoryUrl.TitleAnchor.mk t none)) :: apost') hapre
  rw [hbad apost] at hl1
  rw [hbad apost'] at hl2
  refine ⟨h1, h1.trans h2.symm, ?_, hl1, hl1.trans hl2.symm⟩
  simp [HackScraper.mainOutput, HackScraper.mainRun,
    HackScraper.get_hacker_news_data, h1, Except.map]

/-- Witness for C4: in each strict variant, an href-less candidate after
one good story, with a good story following it that is never reached. -/
theorem c4_missing_href_fatal_witness :
    (∀ s ∈ [HackScraper.Anchor.mk (some "http://a") ["Story A"]],
      HackScraper.anchorOk s = true) ∧
    (∀ m ∈ [RankStoryUrl.Athing.mk (some "1.")
        (some (RankStoryUrl.TitleAnchor.mk "Story A" (some "http://a")))],
      RankStoryUrl.athingOk m = true) ∧
    HackScraper.hnTable
        ([HackScraper.Anchor.mk (some "http://a") ["Story A"]] ++
          HackScraper.Anchor.mk none ["Story B"] ::
            [HackScraper.Anchor.mk (some "http://c") ["Story C"]]) =
      .error .unwrapNone ∧
    RankStoryUrl.hnLoop
        ([RankStoryUrl.Athing.mk (some "1.")
            (some (RankStoryUrl.TitleAnchor.mk "Story A" (some "http://a")))] ++
          RankStoryUrl.Athing.mk (some "2.")
            (some (RankStoryUrl.TitleAnchor.mk "Story B" none)) ::
            [RankStoryUrl.Athing.mk (some "3.")
              (some (RankStoryUrl.TitleAnchor.mk "Story C" (some "http://c")))]) =
      ([RankStoryUrl.Athing.mk (some "1.")
          (some (RankStoryUrl.TitleAnchor.mk "Story A" (some "http://a")))].flatMap
            (fun m => (RankStoryUrl.nodeStep m).1) ++
        ["\n | " ++ "2." ++ " | " ++ "Story B" ++ "\n" ++ "\n"], true) :=
  ⟨by decide, by decide,
   (c4_missing_href_fatal
      [HackScraper.Anchor.mk (some "http://a") ["Story A"]]
      [HackScraper.Anchor.mk (some "http://c") ["Story C"]] []
      (HackScraper.Anchor.mk none ["Story B"]) 200
      (by decide) (by decide)
      [RankStoryUrl.Athing.mk (some "1.")
        (some (RankStoryUrl.TitleAnchor.mk "Story A" (some "http://a")))]
      [RankStoryUrl.Athing.mk (some "3.")
        (some (RankStoryUrl.TitleAnchor.mk "Story C" (some "http://c")))] []
      "2." "Story B" (by decide)).1,
   (c4_missing_href_fatal
      [HackScraper.Anchor.mk (some "http://a") ["Story A"]]
      [HackScraper.Anchor.mk (some "http://c") ["Story C"]] []
      (HackScraper.Anchor.mk none ["Story B"]) 200
      (by decide) (by decide)
      [RankStoryUrl.Athing.mk (some "1.")
        (some (RankStoryUrl.TitleAnchor.mk "Story A" (some "http://a")))]
      [RankStoryUrl.Athing.mk (some "3.")
        (some (RankStoryUrl.TitleAnchor.mk "Story C" (some "http://c")))] []
      "2." "Story B" (by decide)).2.2.2.1⟩

/-- Claim C5 counterexample: no emptiness check exists anywhere.  In the
table variant an anchor whose href attribute is the empty string and an
anchor whose first text fragment is empty both survive extraction, so a
record with an empty url and a record with an empty title reach the
renderer in a successful run; in the line variant a node whose anchor has
empty text and an empty href value is likewise rendered in full without
panic. -/
theorem c5_counterexample :
    HackScraper.hnTable
        [HackScraper.Anchor.mk (some "") ["Story A"],
         HackScraper.Anchor.mk (some "http://b") [""]] =
      .ok [("Story A", ""), ("", "http://b")] ∧
    HackScraper.mainOutput
        (Scrape.Response.mk 200
          [HackScraper.Anchor.mk (some "") ["Story A"],
           HackScraper.Anchor.mk (some "http://b") [""]]) =
      ["Story A", "", "", "http://b"] ∧
    RankStoryUrl.hnLoop
        [RankStoryUrl.Athing.mk (some "1.")
          (some (RankStoryUrl.TitleAnchor.mk "" (some "")))] =
      (["\n | " ++ "1." ++ " | " ++ "" ++ "\n" ++ "\n",
        Scrape.rustDebug "" ++ "\n" ++ "\n"], false) :=
  ⟨rfl, rfl, rfl⟩

/-- Claim C5 amended: every record that reaches the renderer has a present
title and a present url, taken verbatim from the document — the first text
fragment and the href attribute of its anchor in the table variant, and
(for a line-variant run that completes without panic) a present rank,
title anchor and href on every node — the strings themselves may be empty,
since emptiness is never checked.  No record with a missing href is ever
rendered in full: the buffered table variant aborts with an error and
renders nothing at all, while the streaming line variant aborts at that
candidate having flushed only its rank/title line, never a URL line for
it. -/
theorem c5_amended (doc : List HackScraper.Anchor)
    (recs : List (String × String))
    (h : HackScraper.hnTable doc = .ok recs)
    (doc2 : List HackScraper.Anchor) (hbad : ∃ s ∈ doc2, s.href = none)
    (st : Nat)
    (adoc : List RankStoryUrl.Athing) (out : List String)
    (hline : RankStoryUrl.hnLoop adoc = (out, false))
    (apre apost : List RankStoryUrl.Athing) (rk t : String)
    (hapre : ∀ m ∈ apre, RankStoryUrl.athingOk m = true) :
    (∀ r ∈ recs, ∃ s ∈ doc, s.href = some r.2 ∧ s.text.head? = some r.1) ∧
    (∃ e, HackScraper.hnTable doc2 = .error e) ∧
    HackScraper.mainOutput (Scrape.Response.mk st doc2) = [] ∧
    (∀ n ∈ adoc, RankStoryUrl.athingOk n = true) ∧
    RankStoryUrl.hnLoop (apre ++ RankStoryUrl.Athing.mk (some rk)
        (some (RankStoryUrl.TitleAnchor.mk t none)) :: apost) =
      (apre.flatMap (fun m => (RankStoryUrl.nodeStep m).1) ++
        ["\n | " ++ rk ++ " | " ++ t ++ "\n" ++ "\n"], true) := by
  have hbadloop : ∀ q : List RankStoryUrl.Athing,
      RankStoryUrl.hnLoop (RankStoryUrl.Athing.mk (some rk)
          (some (RankStoryUrl.TitleAnchor.mk t none)) :: q) =
        (["\n | " ++ rk ++ " | " ++ t ++ "\n" ++ "\n"], true) := fun q => rfl
  have hl := hnLoop_append_ok apre (RankStoryUrl.Athing.mk (some rk)
    (some (RankStoryUrl.TitleAnchor.mk t none)) :: apost) hapre
  rw [hbadloop apost] at hl
  refine ⟨?_, hnTable_missing_href doc2 hbad, ?_,
    hnLoop_no_panic adoc (by rw [hline]), hl⟩
  · intro r hr
    rcases hnTable_ok_mem doc recs h r hr with ⟨s, hs, h1, h2, _⟩
    exact ⟨s, hs, h1, h2⟩
  · rcases hnTable_missing_href doc2 hbad with ⟨e, he⟩
    simp [HackScraper.mainOutput, HackScraper.mainRun,
      HackScraper.get_hacker_news_data, he, Except.map]

/-- Witness for C5 amended at a concrete good document per variant, a
concrete href-less table document, and a concrete href-less line candidate
whose rank/title line alone is flushed before the panic. -/
theorem c5_amended_witness :
    HackScraper.hnTable [HackScraper.Anchor.mk (some "http://a") ["Story A"]] =
      .ok [("Story A", "http://a")] ∧
    (∃ s ∈ [HackScraper.Anchor.mk none ["Story B"]],
      HackScraper.Anchor.href s = none) ∧
    RankStoryUrl.hnLoop
        [RankStoryUrl.Athing.mk (some "1.")
          (some (RankStoryUrl.TitleAnchor.mk "Story A" (some "http://a")))] =
      (["\n | " ++ "1." ++ " | " ++ "Story A" ++ "\n" ++ "\n",
        Scrape.rustDebug "http://a" ++ "\n" ++ "\n"], false) ∧
    HackScraper.mainOutput
        (Scrape.Response.mk 200 [HackScraper.Anchor.mk none ["Story B"]]) = [] ∧
    RankStoryUrl.hnLoop
        ([] ++ RankStoryUrl.Athing.mk (some "1.")
          (some (RankStoryUrl.TitleAnchor.mk "Story B" none)) :: []) =
      (([] : List RankStoryUrl.Athing).flatMap
          (fun m => (RankStoryUrl.nodeStep m).1) ++
        ["\n | " ++ "1." ++ " | " ++ "Story B" ++ "\n" ++ "\n"], true) :=
  ⟨by rfl, ⟨HackScraper.Anchor.mk none ["Story B"], by decide, rfl⟩, by rfl,
   (c5_amended [HackScraper.Anchor.mk (some "http://a") ["Story A"]]
      [("Story A", "http://a")] (by rfl)
      [HackScraper.Anchor.mk none ["Story B"]]
      ⟨HackScraper.Anchor.mk none ["Story B"], by decide, rfl⟩ 200
      [RankStoryUrl.Athing.mk (some "1.")
        (some (RankStoryUrl.TitleAnchor.mk "Story A" (some "http://a")))]
      ["\n | " ++ "1." ++ " | " ++ "Story A" ++ "\n" ++ "\n",
       Scrape.rustDebug "http://a" ++ "\n" ++ "\n"] (by rfl)
      [] [] "1." "Story B" (by decide)).2.2.1,
   (c5_amended [HackScraper.Anchor.mk (some "http://a") ["Story A"]]
      [("Story A", "http://a")] (by rfl)
      [HackScraper.Anchor.mk none ["Story B"]]
      ⟨HackScraper.Anchor.mk none ["Story B"], by decide, rfl⟩ 200
      [RankStoryUrl.Athing.mk (some "1.")
        (some (RankStoryUrl.TitleAnchor.mk "Story A" (some "http://a")))]
      ["\n | " ++ "1." ++ " | " ++ "Story A" ++ "\n" ++ "\n",
       Scrape.rustDebug "http://a" ++ "\n" ++ "\n"] (by rfl)
      [] [] "1." "Story B" (by decide)).2.2.2.2⟩

/-- Claim C6 counterexample: the block actually printed for a fully-formed
record is `"\n | <rank> | <title>\n\n"` (leading blank line, leading ` | `,
trailing blank line) followed by the *debug-quoted* URL and a blank line —
not the bare `"<rank> | <title>"` line plus raw URL the claim states; and a
node with an absent rank does not have the field omitted: the iteration
panics and prints nothing. -/
theorem c6_counterexample :
    (RankStoryUrl.nodeStep (RankStoryUrl.Athing.mk (some "1.")
        (some (RankStoryUrl.TitleAnchor.mk "Story A" (some "http://a"))))).1 ≠
      RankStoryUrl.specBlock "1." "Story A" "http://a" ∧
    RankStoryUrl.nodeStep (RankStoryUrl.Athing.mk none
        (some (RankStoryUrl.TitleAnchor.mk "Story B" (some "http://b")))) =
      ([], true) := by
  exact ⟨by decide, rfl⟩

/-- Claim C6 amended: for every rendered record the emitted block is the
line `"\n | <rank> | <title>\n"` (surrounded by blank lines as printed)
followed by the record's URL in quoted debug form on its own line plus a
blank line, blocks concatenated in iteration order; a record with an
absent rank panics the run instead of omitting the field; and the
`scraper_stories` line variant prints only the debug-formatted fragment
vector per record, with no rank and no URL. -/
theorem c6_amended (doc : List RankStoryUrl.Athing)
    (h : ∀ n ∈ doc, RankStoryUrl.athingOk n = true) :
    RankStoryUrl.hnLoop doc =
      (doc.flatMap (fun n => (RankStoryUrl.nodeStep n).1), false) ∧
    (∀ rk t u, RankStoryUrl.nodeStep
        (RankStoryUrl.Athing.mk (some rk)
          (some (RankStoryUrl.TitleAnchor.mk t (some u)))) =
      (["\n | " ++ rk ++ " | " ++ t ++ "\n" ++ "\n",
        Scrape.rustDebug u ++ "\n" ++ "\n"], false)) ∧
    (∀ ta, RankStoryUrl.nodeStep (RankStoryUrl.Athing.mk none ta) = ([], true)) ∧
    (∀ st stories, Scrape.statusIsSuccess st = true →
      ScraperStories.hn_headlines (Scrape.Response.mk st stories) =
        (stories.map (fun txt => Scrape.rustDebugVec txt ++ "\n"), false)) := by
  refine ⟨hnLoop_ok doc h, fun rk t u => rfl, fun ta => rfl, fun st stories hst => ?_⟩
  simp [ScraperStories.hn_headlines, hst]

/-- Witness for C6 amended at a one-node document. -/
theorem c6_amended_witness :
    (∀ n ∈ [RankStoryUrl.Athing.mk (some "1.")
        (some (RankStoryUrl.TitleAnchor.mk "Story A" (some "http://a")))],
      RankStoryUrl.athingOk n = true) ∧
    RankStoryUrl.hnLoop
        [RankStoryUrl.Athing.mk (some "1.")
          (some (RankStoryUrl.TitleAnchor.mk "Story A" (some "http://a")))] =
      (([RankStoryUrl.Athing.mk (some "1.")
          (some (RankStoryUrl.TitleAnchor.mk "Story A" (some "http://a")))].flatMap
            (fun n => (RankStoryUrl.nodeStep n).1)), false) :=
  ⟨by decide,
   (c6_amended
      [RankStoryUrl.Athing.mk (some "1.")
        (some (RankStoryUrl.TitleAnchor.mk "Story A" (some "http://a")))]
      (by decide)).1⟩

/-- Claim C7 counterexample: no trimming happens anywhere.  The extracted
title is the raw anchor text: with surrounding whitespace in the source
text, the title differs from its trimmed form in both variants. -/
theorem c7_counterexample :
    RankStoryUrl.storyTitle (RankStoryUrl.Athing.mk (some "1.")
        (some (RankStoryUrl.TitleAnchor.mk " Story A " (some "http://a")))) =
      some " Story A " ∧
    RankStoryUrl.specTrim " Story A " = "Story A" ∧
    " Story A " ≠ "Story A" ∧
    HackScraper.hnTable
        [HackScraper.Anchor.mk (some "http://a") [" Story A "]] =
      .ok [(" Story A ", "http://a")] := by
  exact ⟨rfl, by decide, by decide, rfl⟩

/-- Claim C7 amended: the extracted title equals the text content of the
title-bearing anchor verbatim — the text-extraction primitives perform no
leading/trailing whitespace trimming: the line variant uses the anchor's
`.text()` as is, and the table variant uses the first collected text
fragment as is. -/
theorem c7_amended (n : RankStoryUrl.Athing) (a : RankStoryUrl.TitleAnchor)
    (hna : n.titleA = some a)
    (doc : List HackScraper.Anchor) (recs : List (String × String))
    (h : HackScraper.hnTable doc = .ok recs) :
    RankStoryUrl.storyTitle n = some a.text ∧
    ∀ r ∈ recs, ∃ s ∈ doc, s.text.head? = some r.1 := by
  refine ⟨by simp [RankStoryUrl.storyTitle, hna], ?_⟩
  intro r hr
  rcases hnTable_ok_mem doc recs h r hr with ⟨s, hs, _, h2, _⟩
  exact ⟨s, hs, h2⟩

/-- Witness for C7 amended: a whitespace-padded title survives verbatim. -/
theorem c7_amended_witness :
    RankStoryUrl.storyTitle (RankStoryUrl.Athing.mk (some "1.")
        (some (RankStoryUrl.TitleAnchor.mk " Story A " (some "http://a")))) =
      some (RankStoryUrl.TitleAnchor.mk " Story A " (some "http://a")).text :=
  (c7_amended
    (RankStoryUrl.Athing.mk (some "1.")
      (some (RankStoryUrl.TitleAnchor.mk " Story A " (some "http://a"))))
    (RankStoryUrl.TitleAnchor.mk " Story A " (some "http://a")) (by rfl)
    [HackScraper.Anchor.mk (some "http://a") [" Story A "]]
    [(" Story A ", "http://a")] (by rfl)).1

theorem keptIdxFrom_zero_mem {α : Type} (keep : α → Bool) (l : List α) (i : Nat) :
    i ∈ Scrape.keptIdxFrom keep 0 l ↔
      ∃ h : i < l.length, keep (l.get ⟨i, h⟩) = true := by
  rw [keptIdxFrom_mem]
  constructor
  · rintro ⟨j, hj, hij, hk⟩
    have : i = j := by omega
    subst this
    exact ⟨hj, hk⟩
  · rintro ⟨h, hk⟩
    exact ⟨i, h, by omega, hk⟩

/-- Claim C8: in the `grab_all_links` variant an anchor lacking the href
attribute is skipped silently — inserting one anywhere leaves the output
unchanged and causes no error — and the output is exactly the href values
of the anchors that have one, one per line, in document order (the
positions of the printed anchors are strictly increasing). -/
theorem c8_grab_all_links (s : Nat) (hs : Scrape.statusIsSuccess s = true)
    (anchors pre post : List (Option String)) :
    GrabAllLinks.hacker_news (Scrape.Response.mk s anchors) =
      ((anchors.filterMap (fun n => n)).map (fun x => x ++ "\n"), false) ∧
    GrabAllLinks.hacker_news (Scrape.Response.mk s (pre ++ none :: post)) =
      GrabAllLinks.hacker_news (Scrape.Response.mk s (pre ++ post)) ∧
    List.Pairwise (· < ·) (GrabAllLinks.linkIdx anchors) ∧
    (∀ i, i ∈ GrabAllLinks.linkIdx anchors ↔
      ∃ hlt : i < anchors.length, (anchors.get ⟨i, hlt⟩).isSome = true) := by
  refine ⟨by simp [GrabAllLinks.hacker_news, hs], ?_,
    keptIdxFrom_pairwise _ 0 anchors,
    fun i => keptIdxFrom_zero_mem _ anchors i⟩
  simp [GrabAllLinks.hacker_news, hs, List.filterMap_append, List.filterMap_cons]

/-- Witness for C8 with a skipped href-less anchor between two links. -/
theorem c8_grab_all_links_witness :
    Scrape.statusIsSuccess 200 = true ∧
    GrabAllLinks.hacker_news
        (Scrape.Response.mk 200 ([some "http://a"] ++ none :: [some "http://b"])) =
      GrabAllLinks.hacker_news
        (Scrape.Response.mk 200 ([some "http://a"] ++ [some "http://b"])) :=
  ⟨by decide,
   (c8_grab_all_links 200 (by decide) [] [some "http://a"] [some "http://b"]).2.1⟩

/-- Claim C9: the table variant indexes the first text fragment of every
candidate unconditionally (`story_txt[0]`), so a matching anchor with no
text content aborts the run with the out-of-bounds crash — before the
login filter or any rendering could consider that record — and the run
produces no output at all. -/
theorem c9_empty_text (pre post : List HackScraper.Anchor) (u : String) (st : Nat)
    (hpre : ∀ s ∈ pre, HackScraper.anchorOk s = true) :
    HackScraper.hnTable
        (pre ++ HackScraper.Anchor.mk (some u) [] :: post) = .error .indexOOB ∧
    HackScraper.mainOutput
        (Scrape.Response.mk st
          (pre ++ HackScraper.Anchor.mk (some u) [] :: post)) = [] := by
  have hcrash : ∀ q : List HackScraper.Anchor,
      HackScraper.hnTable (HackScraper.Anchor.mk (some u) [] :: q) =
        .error .indexOOB := by
    intro q
    simp [HackScraper.hnTable, HackScraper.processStory]
  have h1 := hnTable_append_error pre _ hpre .indexOOB (hcrash post)
  exact ⟨h1, by
    simp [HackScraper.mainOutput, HackScraper.mainRun,
      HackScraper.get_hacker_news_data, h1, Except.map]⟩

/-- Witness for C9: a text-less anchor after one good story. -/
theorem c9_empty_text_witness :
    (∀ s ∈ [HackScraper.Anchor.mk (some "http://a") ["Story A"]],
      HackScraper.anchorOk s = true) ∧
    HackScraper.hnTable
        ([HackScraper.Anchor.mk (some "http://a") ["Story A"]] ++
          HackScraper.Anchor.mk (some "http://empty") [] :: []) =
      .error .indexOOB :=
  ⟨by decide,
   (c9_empty_text [HackScraper.Anchor.mk (some "http://a") ["Story A"]] []
      "http://empty" 200 (by decide)).1⟩

/-- Claim C10: in the table variant the href attribute is read and
unwrapped before the login filter is applied, so a `"login"` entry lacking
the href attribute aborts the run with the unwrap crash instead of being
silently skipped, and nothing at all is rendered. -/
theorem c10_login_no_href (pre post : List HackScraper.Anchor) (st : Nat)
    (hpre : ∀ s ∈ pre, HackScraper.anchorOk s = true) :
    HackScraper.isLoginItem (HackScraper.Anchor.mk none ["login"]) = true ∧
    HackScraper.hnTable
        (pre ++ HackScraper.Anchor.mk none ["login"] :: post) =
      .error .unwrapNone ∧
    HackScraper.mainOutput
        (Scrape.Response.mk st
          (pre ++ HackScraper.Anchor.mk none ["login"] :: post)) = [] := by
  have hcrash : ∀ q : List HackScraper.Anchor,
      HackScraper.hnTable (HackScraper.Anchor.mk none ["login"] :: q) =
        .error .unwrapNone := by
    intro q
    simp [HackScraper.hnTable, HackScraper.processStory]
  have h1 := hnTable_append_error pre _ hpre .unwrapNone (hcrash post)
  exact ⟨rfl, h1, by
    simp [HackScraper.mainOutput, HackScraper.mainRun,
      HackScraper.get_hacker_news_data, h1, Except.map]⟩

/-- Witness for C10: an href-less login entry after one good story. -/
theorem c10_login_no_href_witness :
    (∀ s ∈ [HackScraper.Anchor.mk (some "http://a") ["Story A"]],
      HackScraper.anchorOk s = true) ∧
    HackScraper.hnTable
        ([HackScraper.Anchor.mk (some "http://a") ["Story A"]] ++
          HackScraper.Anchor.mk none ["login"] :: []) =
      .error .unwrapNone :=
  ⟨by decide,
   (c10_login_no_href [HackScraper.Anchor.mk (some "http://a") ["Story A"]] []
      200 (by decide)).2.1⟩
